import Mathlib

/-!
Shallow embedding of `src/mds/Mutation.h` (ceph MDS mutation / request
lifecycle core): `MutationImpl` with its pin and lock bookkeeping,
`LockOp`/`LockOpVec`, `MDRequestImpl` with its lazily allocated `More`
block, `MDSlaveUpdate`, and `MDLockCache`.

Modelling conventions:
- `mds_rank_t` is `Int`, with `MDS_RANK_NONE = -1` as in the source.
- Pointer identities (`SimpleLock*`, `Context*`, `CInode*`, ...) are
  modelled by `Nat` identifiers; null pointers by `Option`.
- The bit field `LockOp::flags` is modelled as a record of `Bool`s, one
  per flag bit (`RDLOCK`, `WRLOCK`, `XLOCK`, `REMOTE_WRLOCK`, `STATE_PIN`).
- `ceph_assert` is modelled as `Option Unit`: `none` is the fatal abort.
- The intrusive `elist` registries are modelled as lists of identifiers
  owned by the registry side.
-/

namespace CephMDS

/-- Source `mds_rank_t` is `int32_t` in the source; modelled as `Int`. -/
abbrev mds_rank_t := Int

/-- Source `MDS_RANK_NONE` is `(mds_rank_t)-1`. -/
def MDS_RANK_NONE : mds_rank_t := -1

/-- Source `ceph_assert(cond)`: aborts the process (modelled as `none`) when the
condition is false. -/
def ceph_assert (b : Bool) : Option Unit :=
  if b then some () else none

/-- Source `utime_t`: a (seconds, nanoseconds) timestamp; default-constructed as
zero, matching `utime_t()`. -/
structure utime_t where
  sec : Nat := 0
  nsec : Nat := 0
deriving DecidableEq

/-- The zero timestamp `utime_t()`. -/
def utime_zero : utime_t := {}

/-- The flag bits of `MutationImpl::LockOp::flags`
(`RDLOCK = 1`, `WRLOCK = 2`, `XLOCK = 4`, `REMOTE_WRLOCK = 8`,
`STATE_PIN = 16`), modelled one `Bool` per bit. -/
structure LockFlags where
  rdlock : Bool := false
  wrlock : Bool := false
  xlock : Bool := false
  remote_wrlock : Bool := false
  state_pin : Bool := false
deriving DecidableEq

/-- Bitwise OR of two flag words. -/
def LockFlags.orWith (a b : LockFlags) : LockFlags :=
  ⟨a.rdlock || b.rdlock, a.wrlock || b.wrlock, a.xlock || b.xlock,
   a.remote_wrlock || b.remote_wrlock, a.state_pin || b.state_pin⟩

/-- Source `MutationImpl::LockOp`: a lock request entry. `lock` is the
`SimpleLock*` identity. -/
structure LockOp where
  lock : Nat
  flags : LockFlags
  wrlock_target : mds_rank_t
deriving DecidableEq

/-- Source `LockOp::is_rdlock`. -/
def LockOp.is_rdlock (op : LockOp) : Bool := op.flags.rdlock

/-- Source `LockOp::is_wrlock`. -/
def LockOp.is_wrlock (op : LockOp) : Bool := op.flags.wrlock

/-- Source `LockOp::is_xlock`. -/
def LockOp.is_xlock (op : LockOp) : Bool := op.flags.xlock

/-- Source `LockOp::is_remote_wrlock`. -/
def LockOp.is_remote_wrlock (op : LockOp) : Bool := op.flags.remote_wrlock

/-- Source `LockOp::is_state_pin`. -/
def LockOp.is_state_pin (op : LockOp) : Bool := op.flags.state_pin

/-- Source `LockOp::clear_wrlock`: `flags &= ~WRLOCK`. -/
def LockOp.clear_wrlock (op : LockOp) : LockOp :=
  { op with flags := { op.flags with wrlock := false } }

/-- Source `LockOp::clear_remote_wrlock`:
`flags &= ~REMOTE_WRLOCK; wrlock_target = MDS_RANK_NONE`. -/
def LockOp.clear_remote_wrlock (op : LockOp) : LockOp :=
  { op with flags := { op.flags with remote_wrlock := false },
            wrlock_target := MDS_RANK_NONE }

/-- Source `LockOp::operator<`: `return lock < r.lock;` — pointer comparison on
the lock identity only. -/
def LockOp.ltb (a b : LockOp) : Bool :=
  a.lock < b.lock

/-- Source `MutationImpl::LockOpVec`: a `vector<LockOp>` of accumulated lock
requests, in request order. -/
abbrev LockOpVec := List LockOp

/-- Source `LockOpVec::add_rdlock`: `emplace_back(lock, LockOp::RDLOCK)`. -/
def LockOpVec.add_rdlock (v : LockOpVec) (lock : Nat) : LockOpVec :=
  v ++ [⟨lock, { rdlock := true }, MDS_RANK_NONE⟩]

/-- Source `LockOpVec::add_xlock` with the default `idx = -1`:
`emplace_back(lock, LockOp::XLOCK)`. -/
def LockOpVec.add_xlock (v : LockOpVec) (lock : Nat) : LockOpVec :=
  v ++ [⟨lock, { xlock := true }, MDS_RANK_NONE⟩]

/-- Source `LockOpVec::add_wrlock` with the default `idx = -1`:
`emplace_back(lock, LockOp::WRLOCK)`. -/
def LockOpVec.add_wrlock (v : LockOpVec) (lock : Nat) : LockOpVec :=
  v ++ [⟨lock, { wrlock := true }, MDS_RANK_NONE⟩]

/-- Source `LockOpVec::add_remote_wrlock`:
`ceph_assert(rank != MDS_RANK_NONE); emplace_back(lock, LockOp::REMOTE_WRLOCK, rank)`.
The failed assertion is the `none` outcome. -/
def LockOpVec.add_remote_wrlock (v : LockOpVec) (lock : Nat)
    (rank : mds_rank_t) : Option LockOpVec :=
  (ceph_assert (decide (rank ≠ MDS_RANK_NONE))).bind fun _ =>
    some (v ++ [⟨lock, { remote_wrlock := true }, rank⟩])

/-- Source `LockOpVec::lock_scatter_gather`:
`emplace_back(lock, LockOp::WRLOCK | LockOp::STATE_PIN)`. -/
def LockOpVec.lock_scatter_gather (v : LockOpVec) (lock : Nat) : LockOpVec :=
  v ++ [⟨lock, { wrlock := true, state_pin := true }, MDS_RANK_NONE⟩]

/-- Source `MutationImpl::ObjectState`: per-object pin bookkeeping. -/
structure ObjectState where
  pinned : Bool := false
  auth_pinned : Bool := false
  remote_auth_pinned : mds_rank_t := MDS_RANK_NONE
deriving DecidableEq

/-- Source `MutationImpl` (the fields relevant to this development; external
`TrackedOp` plumbing is out of scope). All defaults are the C++ in-class
initializers. -/
structure MutationImpl where
  reqid : Nat := 0
  attempt : Nat := 0
  mds_stamp : utime_t := {}
  op_stamp : utime_t := {}
  slave_to_mds : mds_rank_t := MDS_RANK_NONE
  object_states : List (Nat × ObjectState) := []
  num_pins : Int := 0
  num_auth_pins : Int := 0
  num_remote_auth_pins : Int := 0
  stickydiri : Option Nat := none
  locks : List LockOp := []
  lock_cache : Option Nat := none
  last_locked : Option Nat := none
  locking : Option Nat := none
  locking_target_mds : Int := -1
  locking_state : Int := 0
  committing : Bool := false
  aborted : Bool := false
  killed : Bool := false
deriving DecidableEq

/-- Source `MutationImpl::~MutationImpl`: the destructor's assertion sequence
`ceph_assert(!locking); ceph_assert(!lock_cache); ceph_assert(num_pins == 0);
ceph_assert(num_auth_pins == 0);` — `none` is the fatal abort. -/
def MutationImpl.destruct (m : MutationImpl) : Option Unit :=
  (ceph_assert m.locking.isNone).bind fun _ =>
  (ceph_assert m.lock_cache.isNone).bind fun _ =>
  (ceph_assert (decide (m.num_pins = 0))).bind fun _ =>
  ceph_assert (decide (m.num_auth_pins = 0))

/-- Source `MutationImpl::is_master`: `slave_to_mds == MDS_RANK_NONE`. -/
def MutationImpl.is_master (m : MutationImpl) : Bool :=
  decide (m.slave_to_mds = MDS_RANK_NONE)

/-- Source `MutationImpl::is_slave`: `slave_to_mds != MDS_RANK_NONE`. -/
def MutationImpl.is_slave (m : MutationImpl) : Bool :=
  decide (m.slave_to_mds ≠ MDS_RANK_NONE)

/-- Source `MutationImpl::set_mds_stamp`. -/
def MutationImpl.set_mds_stamp (m : MutationImpl) (t : utime_t) : MutationImpl :=
  { m with mds_stamp := t }

/-- Source `MutationImpl::get_mds_stamp`. -/
def MutationImpl.get_mds_stamp (m : MutationImpl) : utime_t :=
  m.mds_stamp

/-- Source `MutationImpl::set_op_stamp`. -/
def MutationImpl.set_op_stamp (m : MutationImpl) (t : utime_t) : MutationImpl :=
  { m with op_stamp := t }

/-- Source `MutationImpl::get_op_stamp`:
`if (op_stamp != utime_t()) return op_stamp; return get_mds_stamp();`. -/
def MutationImpl.get_op_stamp (m : MutationImpl) : utime_t :=
  if m.op_stamp ≠ utime_zero then m.op_stamp else m.get_mds_stamp

/-- The strict order on lock request entries induced by
`LockOp::operator<`: comparison of the lock identities alone. -/
def lockLT (a b : LockOp) : Prop := a.lock < b.lock

/-- Ordered insertion into a list sorted by lock identity, combining with
`f` when an entry with the same lock identity is already present. This is
the common shape of the `std::set<LockOp>` insertion (`f` keeps the
existing entry) and of the merge step of `sort_and_merge` (`f` merges the
two requests). -/
def insertCombine (f : LockOp → LockOp → LockOp) (op : LockOp) :
    List LockOp → List LockOp
  | [] => [op]
  | h :: t =>
    if op.lock < h.lock then op :: h :: t
    else if op.lock = h.lock then f op h :: t
    else h :: insertCombine f op t

/-- Source `MutationImpl::emplace_lock`: `last_locked = l; locks.emplace(l, f, t)`.
`std::set::emplace` keeps the existing element when an equivalent one is
present. -/
def MutationImpl.emplace_lock (m : MutationImpl) (l : Nat) (f : LockFlags)
    (t : mds_rank_t) : MutationImpl :=
  { m with last_locked := some l,
           locks := insertCombine (fun _ old => old) ⟨l, f, t⟩ m.locks }

theorem lock_of_mem_insertCombine (f : LockOp → LockOp → LockOp)
    (hf : ∀ a b, (f a b).lock = b.lock) (op : LockOp) (l : List LockOp) :
    ∀ x ∈ insertCombine f op l, x.lock = op.lock ∨ ∃ y ∈ l, x.lock = y.lock := by
  induction l with
  | nil =>
    intro x hx
    simp only [insertCombine, List.mem_singleton] at hx
    exact Or.inl (by rw [hx])
  | cons h t ih =>
    intro x hx
    unfold insertCombine at hx
    by_cases h1 : op.lock < h.lock
    · rw [if_pos h1] at hx
      rcases List.mem_cons.mp hx with hx | hx
      · exact Or.inl (by rw [hx])
      · rcases List.mem_cons.mp hx with hx | hx
        · exact Or.inr ⟨h, List.mem_cons_self h t, by rw [hx]⟩
        · exact Or.inr ⟨x, List.mem_cons_of_mem h hx, rfl⟩
    · by_cases h2 : op.lock = h.lock
      · rw [if_neg h1, if_pos h2] at hx
        rcases List.mem_cons.mp hx with hx | hx
        · exact Or.inr ⟨h, List.mem_cons_self h t, by rw [hx, hf op h]⟩
        · exact Or.inr ⟨x, List.mem_cons_of_mem h hx, rfl⟩
      · rw [if_neg h1, if_neg h2] at hx
        rcases List.mem_cons.mp hx with hx | hx
        · exact Or.inr ⟨h, List.mem_cons_self h t, by rw [hx]⟩
        · rcases ih x hx with h3 | ⟨y, hy, h3⟩
          · exact Or.inl h3
          · exact Or.inr ⟨y, List.mem_cons_of_mem h hy, h3⟩

theorem pairwise_insertCombine (f : LockOp → LockOp → LockOp)
    (hf : ∀ a b, (f a b).lock = b.lock) (op : LockOp) (l : List LockOp)
    (hl : List.Pairwise lockLT l) :
    List.Pairwise lockLT (insertCombine f op l) := by
  induction l with
  | nil =>
    simp only [insertCombine]
    exact List.pairwise_singleton lockLT op
  | cons h t ih =>
    rcases List.pairwise_cons.mp hl with ⟨hh, ht⟩
    unfold insertCombine
    by_cases h1 : op.lock < h.lock
    · rw [if_pos h1]
      refine List.Pairwise.cons ?_ hl
      intro x hx
      rcases List.mem_cons.mp hx with hx | hx
      · rw [hx]; exact h1
      · exact lt_trans h1 (hh x hx)
    · by_cases h2 : op.lock = h.lock
      · rw [if_neg h1, if_pos h2]
        refine List.Pairwise.cons ?_ ht
        intro x hx
        have := hh x hx
        unfold lockLT at this ⊢
        rw [hf op h]
        exact this
      · rw [if_neg h1, if_neg h2]
        refine List.Pairwise.cons ?_ (ih ht)
        intro x hx
        have hop : h.lock < op.lock :=
          lt_of_le_of_ne (Nat.le_of_not_lt h1) (fun e => h2 e.symm)
        rcases lock_of_mem_insertCombine f hf op t x hx with h3 | ⟨y, hy, h3⟩
        · unfold lockLT; rw [h3]; exact hop
        · unfold lockLT; rw [h3]; exact hh y hy

theorem insertCombine_of_forall_lt (f : LockOp → LockOp → LockOp)
    (op : LockOp) (l : List LockOp) (hlt : ∀ x ∈ l, op.lock < x.lock) :
    insertCombine f op l = op :: l := by
  cases l with
  | nil => rfl
  | cons h t =>
    unfold insertCombine
    rw [if_pos (hlt h (List.mem_cons_self h t))]

theorem foldr_insertCombine_sorted (f : LockOp → LockOp → LockOp)
    (l : List LockOp) (hl : List.Pairwise lockLT l) :
    l.foldr (insertCombine f) [] = l := by
  induction l with
  | nil => rfl
  | cons h t ih =>
    rcases List.pairwise_cons.mp hl with ⟨hh, ht⟩
    simp only [List.foldr]
    rw [ih ht]
    exact insertCombine_of_forall_lt f h t hh

/-- Subsumption of lock modes on one lock, from the spec: an exclusive
request subsumes a write request, which subsumes a read request. -/
def mergeSubsume (f : LockFlags) : LockFlags :=
  if f.xlock then { f with rdlock := false, wrlock := false }
  else if f.wrlock then { f with rdlock := false }
  else f

/-- Merging two lock requests on the same lock: union of the mode bits
with subsumption applied, and the larger of the two target ranks. -/
def mergeOps (a b : LockOp) : LockOp :=
  ⟨b.lock, mergeSubsume (a.flags.orWith b.flags),
   max a.wrlock_target b.wrlock_target⟩

/-- Modelled from the spec: the body of
`MutationImpl::LockOpVec::sort_and_merge` lives in `Mutation.cc`, which is
not under `src/` (only the declaration is). Per the spec it deduplicates
multiple requests on the same lock — an exclusive request subsumes a write
request which subsumes a read request — and re-sorts the requests into the
canonical global lock-identity order. -/
def LockOpVec.sort_and_merge (v : LockOpVec) : LockOpVec :=
  v.foldr (insertCombine mergeOps) []

theorem pairwise_sort_and_merge (v : LockOpVec) :
    List.Pairwise lockLT (LockOpVec.sort_and_merge v) := by
  induction v with
  | nil => exact List.Pairwise.nil
  | cons h t ih =>
    exact pairwise_insertCombine mergeOps (fun _ _ => rfl) h _ ih

/-- Source `CEPH_NOSNAP` is `((__u64)(-2))`. -/
def CEPH_NOSNAP : Nat := 18446744073709551614

/-- Source `MDRequestImpl::More`: the rarely-used fields broken into a
separately allocated structure. Pointers are modelled as `Option Nat`,
`bufferlist`s as `List Nat`, sets and intrusive containers as lists, maps
as association lists. All defaults are the C++ in-class initializers
(container members default-construct empty). -/
structure More where
  slave_error : Int := 0
  slaves : List mds_rank_t := []
  waiting_on_slave : List mds_rank_t := []
  witnessed : List mds_rank_t := []
  pvmap : List (Nat × Nat) := []
  has_journaled_slaves : Bool := false
  slave_update_journaled : Bool := false
  slave_rolling_back : Bool := false
  extra_witnesses : List mds_rank_t := []
  srcdn_auth_mds : mds_rank_t := MDS_RANK_NONE
  inode_import : List Nat := []
  inode_import_v : Nat := 0
  rename_inode : Option Nat := none
  is_freeze_authpin : Bool := false
  is_ambiguous_auth : Bool := false
  is_remote_frozen_authpin : Bool := false
  is_inode_exporter : Bool := false
  imported_session_map : List (Int × (Nat × Nat)) := []
  cap_imports : List (Nat × List (Int × Nat)) := []
  flock_was_waiting : Bool := false
  stid : Nat := 0
  snapidbl : List Nat := []
  srci_srnode : Option Nat := none
  desti_srnode : Option Nat := none
  slave_commit : Option Nat := none
  rollback_bl : List Nat := []
  waiting_for_finish : List Nat := []
  export_dir : Option Nat := none
  fragment_base : Nat := 0
  filepath1 : List String := []
  filepath2 : List String := []

/-- Source `MDRequestImpl::Params`: the constructor parameter block. In-class
behavior of `Params()`: `attempt = 0`, `slave_to = MDS_RANK_NONE`,
`internal_op = -1`. -/
structure Params where
  reqid : Nat := 0
  attempt : Nat := 0
  client_req : Option Nat := none
  triggering_slave_req : Option Nat := none
  slave_to : mds_rank_t := MDS_RANK_NONE
  initiated : utime_t := {}
  throttled : utime_t := {}
  all_read : utime_t := {}
  dispatched : utime_t := {}
  internal_op : Int := -1

/-- Source `MDRequestImpl`: per-request state on top of `MutationImpl`. Fields
with C++ in-class initializers carry them as defaults; `in[2]` is
modelled as the pair `in_` (Lean reserves `in`). -/
structure MDRequestImpl extends MutationImpl where
  session : Option Nat
  item_session_request : Nat
  client_request : Option Nat
  dir_root : Nat × Nat := (0, 0)
  dir_depth : Int × Int := (-1, -1)
  dir_layout : Nat := 0
  dn : List Nat × List Nat := ([], [])
  in_ : Option Nat × Option Nat
  straydn : Option Nat
  snapid : Nat
  tracei : Option Nat
  tracedn : Option Nat
  alloc_ino : Nat
  used_prealloc_ino : Nat
  prealloc_inos : List Nat := []
  snap_caps : Int := 0
  getattr_caps : Int := 0
  no_early_reply : Bool := false
  did_early_reply : Bool := false
  o_trunc : Bool := false
  has_completed : Bool := false
  reply_extra_bl : List Nat := []
  cap_releases : List (Nat × Nat) := []
  slave_request : Option Nat := none
  internal_op : Int
  internal_op_finish : Option Nat
  internal_op_private : Option Nat
  retry : Int
  is_batch_head : Bool := false
  waited_for_osdmap : Bool
  _more : Option More
  batch_reqs : List Nat := []

/-- Source `MDRequestImpl::MDRequestImpl(params, tracker)`: forwards
`(initiated, reqid, attempt, slave_to)` to the `MutationImpl` base and
initializes `session(NULL)`, `item_session_request(this)`,
`client_request(params->client_req)`, `straydn(NULL)`,
`snapid(CEPH_NOSNAP)`, `tracei(NULL)`, `tracedn(NULL)`, `alloc_ino(0)`,
`used_prealloc_ino(0)`, `internal_op(params->internal_op)`,
`internal_op_finish(NULL)`, `internal_op_private(NULL)`, `retry(0)`,
`waited_for_osdmap(false)`, `_more(NULL)`, `in[0] = in[1] = NULL`. -/
def mkMDRequestImpl (selfId : Nat) (params : Params) : MDRequestImpl :=
  { toMutationImpl :=
      { reqid := params.reqid, attempt := params.attempt,
        slave_to_mds := params.slave_to },
    session := none,
    item_session_request := selfId,
    client_request := params.client_req,
    in_ := (none, none),
    straydn := none,
    snapid := CEPH_NOSNAP,
    tracei := none,
    tracedn := none,
    alloc_ino := 0,
    used_prealloc_ino := 0,
    internal_op := params.internal_op,
    internal_op_finish := none,
    internal_op_private := none,
    retry := 0,
    waited_for_osdmap := false,
    _more := none }

/-- Source `MDRequestImpl::has_more`: whether the `More` block is allocated. -/
def MDRequestImpl.has_more (r : MDRequestImpl) : Bool :=
  r._more.isSome

/-- Modelled from the spec: `MDRequestImpl::more()` is defined in
`Mutation.cc`, which is not under `src/`; it allocates the `More` block
on first use and returns it. -/
def MDRequestImpl.more (r : MDRequestImpl) : More × MDRequestImpl :=
  match r._more with
  | some m => (m, r)
  | none => ({}, { r with _more := some {} })

/-- One step of request processing, as far as `More` allocation is
concerned. -/
inductive ReqStep where
  | crossRank
  | snapTouch
  | localWork

/-- Whether a processing step requires the `TransactionExtras` block:
cross-rank coordination and snapshot-state steps do, purely local
single-rank work does not. -/
def ReqStep.needsExtras : ReqStep → Bool
  | .crossRank => true
  | .snapTouch => true
  | .localWork => false

/-- Modelled from the spec: the call sites of `more()` are outside
`src/`; per the spec the block is allocated exactly when the transaction
requires cross-rank coordination or touches snapshot state, and is left
unallocated by purely local processing. -/
def applyStep (r : MDRequestImpl) (e : ReqStep) : MDRequestImpl :=
  if e.needsExtras then (r.more).2 else r

/-- Run a request through a sequence of processing steps. -/
def runSteps (r : MDRequestImpl) (es : List ReqStep) : MDRequestImpl :=
  es.foldl applyStep r

theorem has_more_runSteps (es : List ReqStep) (r : MDRequestImpl) :
    (runSteps r es).has_more =
      (r.has_more || es.any ReqStep.needsExtras) := by
  induction es generalizing r with
  | nil => simp [runSteps]
  | cons e t ih =>
    have step : (applyStep r e).has_more = (r.has_more || e.needsExtras) := by
      unfold applyStep
      cases he : e.needsExtras
      · simp
      · simp only [if_pos rfl]
        unfold MDRequestImpl.more MDRequestImpl.has_more
        cases hm : r._more <;> simp [hm]
    calc (runSteps r (e :: t)).has_more
        = (runSteps (applyStep r e) t).has_more := rfl
      _ = ((applyStep r e).has_more || t.any ReqStep.needsExtras) := ih _
      _ = (r.has_more || (e :: t).any ReqStep.needsExtras) := by
          rw [step, List.any_cons, Bool.or_assoc]

/-- Source `MDSlaveUpdate`: participant-side record of one prepared operation.
`id` models the record's address (its `elist` node identity); `rollback`
is the `bufferlist` payload claimed from the constructor argument;
`waiter` is the `Context*` completion waiter. -/
structure MDSlaveUpdate where
  id : Nat
  origop : Int
  rollback : List Nat
  waiter : Option Nat := none
  olddirs : List Nat := []
  unlinked : List Nat := []
deriving DecidableEq

/-- Source `MDSlaveUpdate::MDSlaveUpdate(oo, rbl, list)`: initializes
`origop = oo`, `waiter = 0`, claims the rollback buffer, and pushes the
record's `item` onto the back of the registry `list`. Returns the record
and the updated registry. -/
def mkMDSlaveUpdate (id : Nat) (oo : Int) (rbl : List Nat)
    (registry : List Nat) : MDSlaveUpdate × List Nat :=
  (⟨id, oo, rbl, none, [], []⟩, registry ++ [id])

/-- Source `MDSlaveUpdate::~MDSlaveUpdate`: `item.remove_myself()` takes the
record out of the registry; `if (waiter) waiter->complete(0)` completes a
registered waiter. Returns the updated registry and the list of completed
contexts. -/
def MDSlaveUpdate.destruct (u : MDSlaveUpdate) (registry : List Nat) :
    List Nat × List Nat :=
  (registry.erase u.id,
   match u.waiter with
   | some c => [c]
   | none => [])

theorem erase_append_singleton (a : Nat) (l : List Nat) (h : a ∉ l) :
    (l ++ [a]).erase a = l := by
  induction l with
  | nil => simp
  | cons b t ih =>
    have hab : a ≠ b := fun e => h (e ▸ List.mem_cons_self b t)
    have hat : a ∉ t := fun e => h (List.mem_cons_of_mem b e)
    have hba : (b == a) = false := by
      simp only [beq_eq_false_iff_ne]
      exact fun e => hab e.symm
    simp [List.erase_cons, hba, ih hat]

/-- Source `Capability` (external collaborator): the fields `MDLockCache`'s
constructor touches — the directory inode returned by `get_inode()` and
the intrusive `lock_caches` list, modelled as an owned list of lock-cache
identities. -/
structure Capability where
  inode : Nat
  lock_caches : List Nat := []
deriving DecidableEq

/-- Source `MDLockCache`: a `MutationImpl` subtype bound to one capability and
one directory inode. `id` models the cache's address (its `elist` node
identity in `Capability::lock_caches`). In-class initializers: `ref = 1`,
`invalidating = false`. -/
structure MDLockCache extends MutationImpl where
  id : Nat
  diri : Nat
  client_cap : Nat
  opcode : Int
  auth_pinned_dirfrags : List Nat := []
  ref : Int := 1
  invalidating : Bool := false

/-- Source `MDLockCache::MDLockCache(cap, op)`: calls `MutationImpl()`, sets
`diri = cap->get_inode()`, `client_cap = cap`, `opcode = op`, and pushes
`item_cap_lock_cache` onto `cap->lock_caches`. Returns the cache and the
updated capability. -/
def mkMDLockCache (id : Nat) (capId : Nat) (cap : Capability) (op : Int) :
    MDLockCache × Capability :=
  ({ toMutationImpl := {}, id := id, diri := cap.inode,
     client_cap := capId, opcode := op },
   { cap with lock_caches := cap.lock_caches ++ [id] })

/-- Source `MDLockCache::get_dir_inode`. -/
def MDLockCache.get_dir_inode (c : MDLockCache) : Nat := c.diri

end CephMDS

namespace CephMDS

/-- C1. The destructor of `MutationImpl` succeeds exactly when there is no
in-flight lock acquisition, no attached lock cache, and the pin and
auth-pin counters are both zero; violating any of these aborts (fatal
assertion, modelled as `none`). -/
theorem mutation_destructor_invariant (m : MutationImpl) :
    m.destruct = some () ↔
      (m.locking = none ∧ m.lock_cache = none ∧
       m.num_pins = 0 ∧ m.num_auth_pins = 0) := by
  unfold MutationImpl.destruct ceph_assert
  rcases m with ⟨_, _, _, _, _, _, np, nap, _, _, _, lc, _, lk, _, _, _, _, _⟩
  simp only [Option.isNone]
  cases lk <;> cases lc <;>
    by_cases hp : np = 0 <;> by_cases ha : nap = 0 <;>
      simp [hp, ha]

/-- C9. `is_master` and `is_slave` are exact complements, and a mutation
is a slave precisely when `slave_to_mds` is a valid rank (not
`MDS_RANK_NONE`). -/
theorem master_slave_dichotomy (m : MutationImpl) :
    m.is_slave = !m.is_master ∧
      (m.is_slave = true ↔ m.slave_to_mds ≠ MDS_RANK_NONE) := by
  constructor
  · unfold MutationImpl.is_slave MutationImpl.is_master
    by_cases h : m.slave_to_mds = MDS_RANK_NONE <;> simp [h]
  · unfold MutationImpl.is_slave
    exact decide_eq_true_iff

/-- C10. `get_op_stamp` returns the client-provided `op_stamp` when it has
been set to a non-default value, and falls back to `get_mds_stamp`
otherwise. -/
theorem get_op_stamp_fallback (m : MutationImpl) :
    (m.op_stamp ≠ utime_zero → m.get_op_stamp = m.op_stamp) ∧
      (m.op_stamp = utime_zero → m.get_op_stamp = m.get_mds_stamp) := by
  unfold MutationImpl.get_op_stamp
  constructor
  · intro h; simp [h]
  · intro h; simp [h]

/-- Witness for C10 at a concrete mutation: an op stamp of 5s is
non-default and is returned as is. -/
theorem get_op_stamp_fallback_witness :
    ({ op_stamp := ⟨5, 0⟩ } : MutationImpl).get_op_stamp = ⟨5, 0⟩ :=
  (get_op_stamp_fallback { op_stamp := ⟨5, 0⟩ }).1 (by decide)

/-- C2. `sort_and_merge` is idempotent on every request sequence, and a
request set carrying read, write and exclusive requests on one lock
collapses to a single exclusive request on that lock. -/
theorem sort_and_merge_idempotent_and_collapse :
    (∀ v : LockOpVec,
        LockOpVec.sort_and_merge (LockOpVec.sort_and_merge v) =
          LockOpVec.sort_and_merge v) ∧
    (∀ l : Nat,
        LockOpVec.sort_and_merge
            (LockOpVec.add_xlock
              (LockOpVec.add_wrlock (LockOpVec.add_rdlock [] l) l) l) =
          [⟨l, { xlock := true }, MDS_RANK_NONE⟩]) := by
  constructor
  · intro v
    exact foldr_insertCombine_sorted mergeOps (LockOpVec.sort_and_merge v)
      (pairwise_sort_and_merge v)
  · intro l
    simp [LockOpVec.add_rdlock, LockOpVec.add_wrlock, LockOpVec.add_xlock,
      LockOpVec.sort_and_merge, insertCombine, mergeOps, mergeSubsume,
      LockFlags.orWith, MDS_RANK_NONE]

/-- C3. The order on lock request entries compares the lock identity
alone: it is unchanged under any change of mode flags and target ranks,
it is irreflexive, transitive, and total on entries with distinct lock
identities (so any two mutations order entries for the same pair of locks
identically), and inserting into a mutation's held-lock set via
`emplace_lock` preserves its strict lock-identity sorting. -/
theorem lock_order_by_identity :
    (∀ (l1 l2 : Nat) (f g f2 g2 : LockFlags) (t s t2 s2 : mds_rank_t),
        LockOp.ltb ⟨l1, f, t⟩ ⟨l2, g, s⟩ =
          LockOp.ltb ⟨l1, f2, t2⟩ ⟨l2, g2, s2⟩) ∧
    (∀ a : LockOp, a.ltb a = false) ∧
    (∀ a b : LockOp, (a.ltb b || b.ltb a || decide (a.lock = b.lock)) = true) ∧
    (∀ a b c : LockOp, a.ltb b = true → b.ltb c = true → a.ltb c = true) ∧
    (∀ (m : MutationImpl) (l : Nat) (f : LockFlags) (t : mds_rank_t),
        List.Pairwise lockLT m.locks →
        List.Pairwise lockLT (m.emplace_lock l f t).locks) := by
  refine ⟨fun l1 l2 _ _ _ _ _ _ _ _ => rfl, ?_, ?_, ?_, ?_⟩
  · intro a
    simp [LockOp.ltb]
  · intro a b
    unfold LockOp.ltb
    rcases Nat.lt_trichotomy a.lock b.lock with h | h | h <;> simp [h]
  · intro a b c hab hbc
    unfold LockOp.ltb at hab hbc ⊢
    simp only [decide_eq_true_eq] at hab hbc ⊢
    exact lt_trans hab hbc
  · intro m l f t hm
    exact pairwise_insertCombine (fun _ old => old) (fun _ _ => rfl) ⟨l, f, t⟩
      m.locks hm

/-- Witness for C3 at concrete entries: transitivity applied to entries
with lock identities 0 < 1 < 2 (and differing flags). -/
theorem lock_order_by_identity_witness :
    LockOp.ltb ⟨0, { rdlock := true }, MDS_RANK_NONE⟩
        ⟨2, { xlock := true }, 7⟩ = true :=
  lock_order_by_identity.2.2.2.1
    ⟨0, { rdlock := true }, MDS_RANK_NONE⟩ ⟨1, {}, MDS_RANK_NONE⟩
    ⟨2, { xlock := true }, 7⟩ (by decide) (by decide)

/-- C5. Constructing an `MDSlaveUpdate` links it into the active-prepares
registry; destroying it removes it from the registry (recovering the
pre-construction registry when the record was not already present) and
completes exactly the registered rollback waiter, none when none was
registered. -/
theorem slave_update_lifecycle :
    (∀ (id : Nat) (oo : Int) (rbl : List Nat) (reg : List Nat),
        id ∈ (mkMDSlaveUpdate id oo rbl reg).2) ∧
    (∀ (id : Nat) (oo : Int) (rbl : List Nat) (reg : List Nat),
        id ∉ reg →
        ((mkMDSlaveUpdate id oo rbl reg).1.destruct
            (mkMDSlaveUpdate id oo rbl reg).2).1 = reg) ∧
    (∀ (u : MDSlaveUpdate) (reg : List Nat),
        (u.destruct reg).2 = u.waiter.toList) ∧
    (∀ (id : Nat) (oo : Int) (rbl : List Nat) (reg : List Nat),
        (mkMDSlaveUpdate id oo rbl reg).1.waiter = none) := by
  refine ⟨?_, ?_, ?_, fun _ _ _ _ => rfl⟩
  · intro id oo rbl reg
    simp [mkMDSlaveUpdate]
  · intro id oo rbl reg h
    simp only [mkMDSlaveUpdate, MDSlaveUpdate.destruct]
    exact erase_append_singleton id reg h
  · intro u reg
    unfold MDSlaveUpdate.destruct
    cases u.waiter <;> rfl

/-- Witness for C5 at a concrete record: record 3 created over the
registry `[1, 2]`, then destroyed, restores `[1, 2]`. -/
theorem slave_update_lifecycle_witness :
    ((mkMDSlaveUpdate 3 0 [9] [1, 2]).1.destruct
        (mkMDSlaveUpdate 3 0 [9] [1, 2]).2).1 = [1, 2] :=
  slave_update_lifecycle.2.1 3 0 [9] [1, 2] (by decide)

/-- C6. Adding a remote-write lock request with target rank
`MDS_RANK_NONE` is an assertion failure; with any valid rank it appends a
request carrying that rank; and clearing the remote-write mode from a
request also resets its target rank to `MDS_RANK_NONE`. -/
theorem remote_wrlock_target_validity :
    (∀ (v : LockOpVec) (l : Nat),
        LockOpVec.add_remote_wrlock v l MDS_RANK_NONE = none) ∧
    (∀ (v : LockOpVec) (l : Nat) (r : mds_rank_t), r ≠ MDS_RANK_NONE →
        LockOpVec.add_remote_wrlock v l r =
          some (v ++ [⟨l, { remote_wrlock := true }, r⟩])) ∧
    (∀ op : LockOp,
        (LockOp.clear_remote_wrlock op).flags.remote_wrlock = false ∧
        (LockOp.clear_remote_wrlock op).wrlock_target = MDS_RANK_NONE) := by
  refine ⟨?_, ?_, fun op => ⟨rfl, rfl⟩⟩
  · intro v l
    simp [LockOpVec.add_remote_wrlock, ceph_assert]
  · intro v l r h
    simp [LockOpVec.add_remote_wrlock, ceph_assert, h]

/-- Witness for C6 at a concrete request: rank 4 is valid, so the request
is appended carrying target rank 4. -/
theorem remote_wrlock_target_validity_witness :
    LockOpVec.add_remote_wrlock [] 0 4 =
      some [⟨0, { remote_wrlock := true }, 4⟩] :=
  remote_wrlock_target_validity.2.1 [] 0 4 (by decide)

/-- C7. Constructing an `MDLockCache` for a capability registers it in
the capability's lock-cache list, binds it to the capability's directory
inode, and initializes it with reference count 1 and the invalidating
flag false. -/
theorem lock_cache_construction (id capId : Nat) (cap : Capability)
    (op : Int) :
    (mkMDLockCache id capId cap op).1.diri = cap.inode ∧
    (mkMDLockCache id capId cap op).1.ref = 1 ∧
    (mkMDLockCache id capId cap op).1.invalidating = false ∧
    (mkMDLockCache id capId cap op).2.lock_caches =
      cap.lock_caches ++ [id] ∧
    id ∈ (mkMDLockCache id capId cap op).2.lock_caches := by
  refine ⟨rfl, rfl, rfl, rfl, ?_⟩
  simp [mkMDLockCache]

/-- C4. A freshly constructed request transaction has no
`TransactionExtras` (`More`) block, and after any sequence of processing
steps the block is allocated if and only if some step required cross-rank
coordination or touched snapshot state. -/
theorem more_block_allocation (selfId : Nat) (params : Params)
    (es : List ReqStep) :
    (mkMDRequestImpl selfId params)._more = none ∧
    (runSteps (mkMDRequestImpl selfId params) es).has_more =
      es.any ReqStep.needsExtras := by
  refine ⟨rfl, ?_⟩
  rw [has_more_runSteps]
  rfl

/-- C8. The combined scatter-gather request appends exactly one entry,
after the existing requests, whose mode is write plus state-pin (no read,
exclusive or remote-write bit) with no target rank. -/
theorem scatter_gather_request (v : LockOpVec) (l : Nat) :
    LockOpVec.lock_scatter_gather v l =
      v ++ [⟨l, ⟨false, true, false, false, true⟩, MDS_RANK_NONE⟩] :=
  rfl

end CephMDS
